import Mathlib

/-
Verification of the memory relevance and retrieval engine of the Dear_Me
backend, a shallow embedding of backend/app/services/memory_service.py.

Modelling conventions:
- Python floats are modelled as exact rationals (ℚ); every constant in the
  source is a short decimal, and none of the properties proved here depends
  on binary rounding.
- Timestamps are rationals counting seconds; `datetime.now(...)` becomes an
  explicit `current_time` argument.
- The database is an explicit list of records; SQLAlchemy queries become
  list filters, and the single `db.commit()` of a store call becomes an
  atomic transition parameterised by a persistence success flag.
-/

namespace DearMe

/-- Does the first character list occur at the head of the second? -/
def leadsWith : List Char → List Char → Bool
  | [], _ => true
  | _ :: _, [] => false
  | a :: as, b :: bs => a == b && leadsWith as bs

/-- Does the first character list occur contiguously anywhere in the second? -/
def occursIn (needle : List Char) : List Char → Bool
  | [] => leadsWith needle []
  | c :: cs => leadsWith needle (c :: cs) || occursIn needle cs

/-- Python `needle in haystack` on strings (substring containment). -/
def strIn (needle haystack : String) : Bool :=
  occursIn needle.data haystack.data

/-- Python `str.lower()` (character-wise; the engine only lowercases ASCII and
Chinese text, on which this agrees with Python). -/
def pyLower (s : String) : String :=
  String.mk (s.data.map Char.toLower)

/-- Helper for `pySplit`: split a character list on whitespace runs. -/
def pySplitAux : List Char → List Char → List (List Char)
  | [], cur => if cur.isEmpty then [] else [cur.reverse]
  | c :: cs, cur =>
    if c.isWhitespace then
      (if cur.isEmpty then pySplitAux cs [] else cur.reverse :: pySplitAux cs [])
    else pySplitAux cs (c :: cur)

/-- Python `str.split()` with no argument: split on whitespace runs, dropping
empty pieces. -/
def pySplit (s : String) : List String :=
  (pySplitAux s.data []).map String.mk

/-- Python `set(s.lower().split())`, modelled as a duplicate-free list (iteration
order of a Python set is never observed by the engine, only membership and
cardinality). -/
def wordSet (s : String) : List String :=
  (pySplit (pyLower s)).dedup

/-- Cardinality of the intersection of two word sets (`len(a & b)`). -/
def interCount (a b : List String) : Nat :=
  (a.filter (fun w => b.contains w)).length

/-- Cardinality of the union of two word sets (`len(a | b)`), for duplicate-free
inputs. -/
def unionCount (a b : List String) : Nat :=
  a.length + (b.filter (fun w => !a.contains w)).length

/-- A row of the `user_memories` table (models.UserMemory), restricted to the
columns the memory engine reads or writes. -/
structure UserMemory where
  user_id : Nat
  category : String
  memory_key : String
  memory_value : String
  confidence_score : ℚ
  source_type : String
  last_updated : Option ℚ
  mention_count : Nat
  is_active : Bool
deriving DecidableEq

/-- `MemoryService.factual_categories`. -/
def factual_categories : List String := ["personal_info", "relationships"]

/-- `MemoryService.temporal_categories`. -/
def temporal_categories : List String := ["interests", "challenges", "goals", "preferences"]

/-- The temporal indicator list of `MemoryService._classify_memory_type`. -/
def temporal_indicators : List String :=
  ["today", "yesterday", "this morning", "this afternoon", "last week", "recently",
   "went to", "had lunch", "had dinner", "had breakfast", "did", "was doing", "feeling", "felt",
   "watching", "doing", "activities", "playing", "working on", "currently",
   "visited", "drove to", "walked to", "shopping", "bought", "ordered",
   "今天", "昨天", "早上", "下午", "上周", "最近", "去了", "吃了", "做了", "感觉", "正在"]

/-- The activity marker list shared by `_calculate_temporal_relevance_multiplier`
and the activity filter of `get_relevant_memories`. -/
def activity_words : List String :=
  ["watching", "doing", "activities", "playing", "working on"]

/-- Whether the value text contains one of the explicit temporal indicators. -/
def has_temporal_indicator (m : UserMemory) : Bool :=
  temporal_indicators.any (fun ind => strIn ind (pyLower m.memory_value))

/-- Whether the value text contains one of the activity markers. -/
def is_activity_value (m : UserMemory) : Bool :=
  activity_words.any (fun w => strIn w (pyLower m.memory_value))

/-- `MemoryService._classify_memory_type`. -/
def classify_memory_type (m : UserMemory) : String :=
  if has_temporal_indicator m then "temporal"
  else if m.category ∈ factual_categories then "factual"
  else if m.category ∈ temporal_categories then "temporal"
  else "factual"

/-- `MemoryService._calculate_temporal_relevance_multiplier`.  The source
checks the missing-timestamp case before the factual short-circuit, and
`age_hours` is `(current_time − last_updated)` in hours. -/
def calculate_temporal_relevance_multiplier (m : UserMemory) (current_time : ℚ) : ℚ :=
  match m.last_updated with
  | none => 0.5
  | some t =>
    if classify_memory_type m = "factual" then 1.0
    else if (current_time - t) / 3600 < 24 then 1.0
    else if (current_time - t) / 3600 < 72 then (if is_activity_value m then 0.7 else 0.8)
    else if (current_time - t) / 3600 < 168 then (if is_activity_value m then 0.4 else 0.6)
    else if (current_time - t) / 3600 < 720 then (if is_activity_value m then 0.2 else 0.3)
    else (if is_activity_value m then 0.05 else 0.1)

/-- A factual-category record with no timestamp (decay counterexample input). -/
def memNoStamp : UserMemory :=
  ⟨1, "personal_info", "personal_info_general", "alex", 0.8, "conversation", none, 1, true⟩

/-- A factual-category record with a timestamp at time 0. -/
def memFactualStamped : UserMemory :=
  ⟨1, "personal_info", "personal_info_general", "alex", 0.8, "conversation", some 0, 1, true⟩

/-- The §8 scenario record: an `interests` record about watching a movie,
last updated at time 0. -/
def memWatchingMovie : UserMemory :=
  ⟨1, "interests", "interests_general", "I was watching a movie", 0.8, "conversation", some 0, 1, true⟩

/-- A temporal-category record with no temporal or activity markers in its
value, last updated at time 0. -/
def memHikingTrips : UserMemory :=
  ⟨1, "interests", "interests_general", "hiking trips", 0.8, "conversation", some 0, 1, true⟩

/-- A record in a category outside the fixed six, with no temporal markers. -/
def memUnknownCategory : UserMemory :=
  ⟨1, "diary_style", "diary_style_general", "sunset colours", 0.8, "conversation", some 0, 1, true⟩

/-- `casual_greeting_patterns` of `_filter_memories_by_conversational_context`. -/
def casual_greeting_patterns : List String :=
  ["hello", "hi", "how are you", "good morning", "good evening", "你好", "早上好", "晚上好"]

/-- `simple_activity_patterns` of `_filter_memories_by_conversational_context`. -/
def simple_activity_patterns : List String :=
  ["today i", "went to", "had lunch", "at work", "in meeting", "今天我", "去了", "吃了午饭", "在工作"]

/-- `mood_only_patterns` of `_filter_memories_by_conversational_context`. -/
def mood_only_patterns : List String :=
  ["feeling", "feel", "mood", "tired", "happy", "sad", "感觉", "心情", "累了", "开心", "难过"]

/-- The relationship words that rescue a `relationships` record in a simple
activity context. -/
def relationship_rescue_words : List String :=
  ["friend", "family", "partner", "with", "朋友", "家人", "伙伴", "和"]

/-- `specific_indicators` of `_filter_memories_by_conversational_context`. -/
def specific_indicators : List String :=
  ["named", "called", "lives in", "works at", "studies", "born in"]

/-- `is_mood_only` of `_filter_memories_by_conversational_context`: a mood
pattern occurs in the lowercased context and the context has fewer than 8
whitespace-delimited tokens. -/
def is_mood_only_context (context : String) : Bool :=
  mood_only_patterns.any (fun p => strIn p (pyLower context)) &&
    decide ((pySplit context).length < 8)

/-- The per-record `should_include` decision of
`_filter_memories_by_conversational_context`: the sequential rules that set
the flag to `False`, then the direct-relevance override that sets it back to
`True`.  `current_time` stands for the `datetime.now(timezone.utc)` the source
reads inside the mood-only rule. -/
def should_include_memory (context : String) (current_time : ℚ) (m : UserMemory) : Bool :=
  let context_lower := pyLower context
  let is_casual_greeting := casual_greeting_patterns.any (fun p => strIn p context_lower)
  let is_simple_activity := simple_activity_patterns.any (fun p => strIn p context_lower)
  let is_mood_only := is_mood_only_context context
  let memory_words := wordSet m.memory_value
  let context_words := wordSet context
  let overlap := interCount memory_words context_words
  let b1 := !(is_casual_greeting && m.category == "personal_info")
  let b2 := !(is_simple_activity && m.category == "relationships" &&
    !(relationship_rescue_words.any (fun w => strIn w context_lower)))
  let b3 := !(is_mood_only && !(m.category == "personal_info") &&
    (match m.last_updated with
     | some t => decide (Int.floor ((current_time - t) / 86400) > 30)
     | none => false))
  let is_specific := specific_indicators.any (fun ind => strIn ind (pyLower m.memory_value))
  let b4 := !(is_specific && overlap == 0 && decide (context_words.length > 3))
  let direct_relevance : ℚ := (overlap : ℚ) / (max context_words.length 1 : ℚ)
  (b1 && b2 && b3 && b4) || decide (direct_relevance > 0.3)

/-- `MemoryService._filter_memories_by_conversational_context`.  An empty
context or an empty record list is returned unchanged; otherwise the
surviving records are truncated to 2 (short context) or 3. -/
def filter_memories_by_conversational_context
    (memories : List UserMemory) (context : String) (current_time : ℚ) : List UserMemory :=
  if context = "" then memories
  else if memories = [] then memories
  else
    (memories.filter (fun m => should_include_memory context current_time m)).take
      (if (pySplit context).length < 10 then 2 else 3)

/-- Python `str.title()` on the character list (uppercase a letter that follows
a non-letter, lowercase the rest). -/
def pyTitleAux : Bool → List Char → List Char
  | _, [] => []
  | prevAlpha, c :: cs =>
    (if c.isAlpha then (if prevAlpha then c.toLower else c.toUpper) else c) ::
      pyTitleAux c.isAlpha cs

/-- Python `str.title()`. -/
def pyTitle (s : String) : String :=
  String.mk (pyTitleAux false s.data)

/-- Python `category.replace('_', ' ')`. -/
def underscoresToSpaces (s : String) : String :=
  String.mk (s.data.map (fun c => if c == '_' then ' ' else c))

/-- The `category_names` lookup of `format_memories_for_prompt`, with the
fallback `category.replace('_', ' ').title()` for unknown categories. -/
def category_title (language category : String) : String :=
  if category == "personal_info" then (if language == "zh" then "个人信息" else "Personal Information")
  else if category == "relationships" then (if language == "zh" then "人际关系" else "Relationships")
  else if category == "interests" then (if language == "zh" then "兴趣爱好" else "Interests")
  else if category == "challenges" then (if language == "zh" then "挑战困难" else "Challenges")
  else if category == "goals" then (if language == "zh" then "目标计划" else "Goals")
  else if category == "preferences" then (if language == "zh" then "偏好习惯" else "Preferences")
  else pyTitle (underscoresToSpaces category)

/-- Python `'; '.join(values)`. -/
def joinSemicolon : List String → String
  | [] => ""
  | [v] => v
  | v :: vs => v ++ "; " ++ joinSemicolon vs

/-- The localized header line of `format_memories_for_prompt`. -/
def memory_header (language : String) : String :=
  if language == "zh" then "用户相关信息（请谨慎使用，仅在直接相关时引用）：\n"
  else "Relevant user context (use sparingly, only when directly relevant):\n"

/-- First-occurrence deduplication (the key order of a Python dict built by
insertion). -/
def firstDedupAux (seen : List String) : List String → List String
  | [] => []
  | c :: cs =>
    if c ∈ seen then firstDedupAux seen cs
    else c :: firstDedupAux (c :: seen) cs

/-- First-occurrence deduplication of a list of category names. -/
def firstDedup (l : List String) : List String :=
  firstDedupAux [] l

/-- One rendered category line of `format_memories_for_prompt`: the localized
label and up to 3 joined values. -/
def render_category_line (language : String) (filtered : List UserMemory) (c : String) : String :=
  "- " ++ category_title language c ++ ": " ++
    joinSemicolon (((filtered.filter (fun m => m.category == c)).take 3).map
      (fun m => m.memory_value)) ++ "\n"

/-- `MemoryService.format_memories_for_prompt`.  `current_time` stands for the
clock read of the suppression pass. -/
def format_memories_for_prompt
    (memories : List UserMemory) (language : String) (context : String)
    (current_time : ℚ) : String :=
  if memories = [] then ""
  else
    let filtered := filter_memories_by_conversational_context memories context current_time
    if filtered = [] then ""
    else
      memory_header language ++
        String.join ((firstDedup (filtered.map (fun m => m.category))).map
          (fun c => render_category_line language filtered c))

/-- The records whose values `format_memories_for_prompt` surfaces: the
grouped, per-category-truncated contents of the rendered lines. -/
def surfaced_memories (memories : List UserMemory) (context : String) (current_time : ℚ) :
    List UserMemory :=
  let filtered := filter_memories_by_conversational_context memories context current_time
  ((firstDedup (filtered.map (fun m => m.category))).map
    (fun c => (filtered.filter (fun m => m.category == c)).take 3)).flatten

/-- An `interests` record with a value unrelated to any test context. -/
def memPainting : UserMemory :=
  ⟨1, "interests", "interests_general", "loves painting", 0.8, "conversation", some 0, 1, true⟩

/-- Three same-category records with distinct values. -/
def memAlpha : UserMemory :=
  ⟨1, "interests", "interests_a", "alpha", 0.8, "conversation", some 0, 1, true⟩

/-- Second of the three same-category records. -/
def memBeta : UserMemory :=
  ⟨1, "interests", "interests_b", "beta", 0.8, "conversation", some 0, 1, true⟩

/-- Third of the three same-category records. -/
def memGamma : UserMemory :=
  ⟨1, "interests", "interests_c", "gamma", 0.8, "conversation", some 0, 1, true⟩

/-- A candidate memory dict as produced by `extract_memories_from_text`
(`{category, memory_key, memory_value, confidence_score, source_type}`). -/
structure MemoryDict where
  category : String
  memory_key : String
  memory_value : String
  confidence_score : ℚ
  source_type : String
deriving DecidableEq

/-- The in-place merge of `store_memories_internal`: overwrite the value, add
0.1 to confidence capped at 1.0, bump `last_updated`, increment
`mention_count`. -/
def merge_into (r : UserMemory) (value : String) (now : ℚ) : UserMemory :=
  { r with
      memory_value := value,
      confidence_score := min 1.0 (r.confidence_score + 0.1),
      last_updated := some now,
      mention_count := r.mention_count + 1 }

/-- A freshly inserted record: the column defaults of `models.UserMemory`
give `last_updated = now`, `mention_count = 1`, `is_active = True`. -/
def new_memory (user_id : Nat) (d : MemoryDict) (now : ℚ) : UserMemory :=
  ⟨user_id, d.category, d.memory_key, d.memory_value, d.confidence_score,
    d.source_type, some now, 1, true⟩

/-- The exact-key lookup filter of `store_memories_internal`
(`user_id`, `category`, `memory_key`; the source does not filter on
`is_active` here). -/
def exact_pred (user_id : Nat) (d : MemoryDict) (r : UserMemory) : Bool :=
  r.user_id == user_id && r.category == d.category && r.memory_key == d.memory_key

/-- The >70% token-overlap test of `store_memories_internal`
(`overlap / total_unique > 0.7` guarded by `total_unique > 0`). -/
def similar_over_70 (newWords existingWords : List String) : Bool :=
  let overlap := interCount newWords existingWords
  let total := unionCount newWords existingWords
  decide (0 < total) && decide ((overlap : ℚ) / (total : ℚ) > 0.7)

/-- The similarity scan filter of `store_memories_internal`: same owner and
category, and >70% value-token overlap. -/
def similar_pred (user_id : Nat) (d : MemoryDict) (r : UserMemory) : Bool :=
  r.user_id == user_id && r.category == d.category &&
    similar_over_70 (wordSet d.memory_value) (wordSet r.memory_value)

/-- Merge `f` into the first list element satisfying `pred`, returning the
updated list and the merged record (the SQLAlchemy in-place mutation of the
first query hit). -/
def merge_first (pred : UserMemory → Bool) (f : UserMemory → UserMemory) :
    List UserMemory → Option (List UserMemory × UserMemory)
  | [] => none
  | r :: rs =>
    if pred r then some ((f r) :: rs, f r)
    else
      match merge_first pred f rs with
      | some (rs2, m) => some (r :: rs2, m)
      | none => none

/-- A SQLAlchemy session mid-batch: `rows` are the flushed rows the queries
see (mutated in place by merges), `pending` the records added but not yet
flushed — the app constructs its sessions with `autoflush=False`, so pending
inserts stay invisible to the queries of later candidates in the same batch. -/
structure SessionState where
  rows : List UserMemory
  pending : List UserMemory
deriving DecidableEq

/-- One loop iteration of `store_memories_internal`: exact-key match first,
then the same-category similarity scan, else insert. -/
def store_step (user_id : Nat) (now : ℚ)
    (st : SessionState × List UserMemory) (d : MemoryDict) :
    SessionState × List UserMemory :=
  match merge_first (exact_pred user_id d) (fun r => merge_into r d.memory_value now) st.1.rows with
  | some (rows2, m) => (⟨rows2, st.1.pending⟩, st.2 ++ [m])
  | none =>
    match merge_first (similar_pred user_id d) (fun r => merge_into r d.memory_value now) st.1.rows with
    | some (rows2, m) => (⟨rows2, st.1.pending⟩, st.2 ++ [m])
    | none =>
      (⟨st.1.rows, st.1.pending ++ [new_memory user_id d now]⟩,
        st.2 ++ [new_memory user_id d now])

/-- `MemoryService.store_memories_internal`.  The whole batch is written by
the single `db.commit()` at the end: `persistOk` models whether that one
transactional write succeeds.  The result is the pair (outcome, database
state after the call): on success the stored list and the new table contents,
on failure the storage-failure signal and the rolled-back (unchanged)
table. -/
def store_memories_internal (db : List UserMemory) (user_id : Nat)
    (extracted_memories : List MemoryDict) (now : ℚ) (persistOk : Bool) :
    Except Unit (List UserMemory) × List UserMemory :=
  let final := extracted_memories.foldl (store_step user_id now) (⟨db, []⟩, [])
  if persistOk then (.ok final.2, final.1.rows ++ final.1.pending)
  else (.error (), db)

/-- The `ExtractedMemory` data class.  `user_id_attr` models the dynamically
attached `user_id` attribute `store_memories` probes with `hasattr`; the class
constructor never sets it. -/
structure ExtractedMemory where
  category : String
  content : String
  confidence : ℚ
  user_id_attr : Option Nat
deriving DecidableEq

/-- Python `'_'.join(words)`. -/
def joinUnderscore : List String → String
  | [] => ""
  | [v] => v
  | v :: vs => v ++ "_" ++ joinUnderscore vs

/-- The content-derived key of the public `store_memories`:
`f"{category}_{'_'.join(content.lower().split()[:3])}"`. -/
def first3words_key (category content : String) : String :=
  category ++ "_" ++ joinUnderscore ((pySplit (pyLower content)).take 3)

/-- The dict the public `store_memories` builds from an `ExtractedMemory`. -/
def to_memory_dict (m : ExtractedMemory) : MemoryDict :=
  ⟨m.category, first3words_key m.category m.content, m.content, m.confidence, "conversation"⟩

/-- `MemoryService.store_memories` (the `ExtractedMemory`-list overload): a
`None` owner falls back to the first memory's `user_id` attribute when there
is one, else to the hard-coded default owner 1. -/
def store_memories (memories : List ExtractedMemory) (db : List UserMemory)
    (user_id : Option Nat) (now : ℚ) (persistOk : Bool) :
    Except Unit (List UserMemory) × List UserMemory :=
  let memory_dicts := memories.map to_memory_dict
  let uid :=
    match user_id with
    | some u => u
    | none =>
      match memories with
      | [] => 1
      | m :: _ => m.user_id_attr.getD 1
  if memory_dicts = [] then (.ok [], db)
  else store_memories_internal db uid memory_dicts now persistOk

-- Extraction: a small regex engine covering the pattern language of
-- `memory_categories` (literals and the greedy capture groups
-- `(\w+)`, `(\d+)`, `([^.]+)`).

/-- The capture-group character classes of the extraction patterns. -/
inductive GrpClass where
  | word
  | digit
  | notDot
deriving DecidableEq

/-- A token of an extraction pattern: a literal character or a greedy
one-or-more capture group of a class. -/
inductive PatTok where
  | lit (c : Char)
  | grp (cls : GrpClass)
deriving DecidableEq

/-- Membership test of a capture-group class (`\w`, `\d`, `[^.]`). -/
def clsPred : GrpClass → Char → Bool
  | .word, c => c.isAlphanum || c == '_'
  | .digit, c => c.isDigit
  | .notDot, c => !(c == '.')

/-- The literal tokens of a pattern fragment. -/
def litToks (s : String) : List PatTok :=
  s.data.map PatTok.lit

/-- First success of `f` over a list of candidate group lengths. -/
def firstSome {α : Type} : List Nat → (Nat → Option α) → Option α
  | [], _ => none
  | k :: ks, f =>
    match f k with
    | some r => some r
    | none => firstSome ks f

/-- Candidate capture lengths for a greedy group, longest first:
`[run, run-1, …, 1]`. -/
def attemptLens (run : Nat) : List Nat :=
  (List.range run).map (fun i => run - i)

/-- Match a token list at the head of the text, with greedy backtracking for
the capture groups; returns the captures and the unconsumed suffix.  The
fuel only bounds the token-list depth (`toks.length + 1` always suffices). -/
def matchToksF : Nat → List PatTok → List Char → Option (List (List Char) × List Char)
  | 0, _, _ => none
  | _ + 1, [], s => some ([], s)
  | _ + 1, .lit _ :: _, [] => none
  | fuel + 1, .lit c :: ts, d :: s => if c == d then matchToksF fuel ts s else none
  | fuel + 1, .grp cls :: ts, s =>
    let run := (s.takeWhile (clsPred cls)).length
    firstSome (attemptLens run) (fun k =>
      match matchToksF fuel ts (s.drop k) with
      | some (caps, rest) => some (s.take k :: caps, rest)
      | none => none)

/-- Python `re.findall` over the pattern language: scan left to right, take
non-overlapping matches, collect the captures of each.  The fuel bounds the
scan (`s.length + 1` always suffices). -/
def findAllF (p : List PatTok) : Nat → List Char → List (List (List Char))
  | 0, _ => []
  | fuel + 1, s =>
    match matchToksF (p.length + 1) p s with
    | some (caps, rest) =>
      if rest.length < s.length then caps :: findAllF p fuel rest
      else
        match s with
        | [] => [caps]
        | _ :: s2 => caps :: findAllF p fuel s2
    | none =>
      match s with
      | [] => []
      | _ :: s2 => findAllF p fuel s2

/-- `re.findall(pattern, text)`: the capture tuples of the non-overlapping
matches. -/
def pyFindAll (p : List PatTok) (s : String) : List (List String) :=
  (findAllF p (s.data.length + 1) s.data).map (fun caps => caps.map String.mk)

/-- The sentence delimiters of the keyword pass (`re.split(r'[.!?]+', text)`). -/
def isSentencePunct (c : Char) : Bool :=
  c == '.' || c == '!' || c == '?'

/-- Helper for `pySplitSentences`: split on runs of sentence punctuation,
keeping empty edge pieces as `re.split` does. -/
def splitRunsAux : Bool → List Char → List Char → List (List Char)
  | _, [], cur => [cur.reverse]
  | inRun, c :: cs, cur =>
    if isSentencePunct c then
      if inRun then splitRunsAux true cs cur
      else cur.reverse :: splitRunsAux true cs []
    else splitRunsAux false cs (c :: cur)

/-- `re.split(r'[.!?]+', text)`. -/
def pySplitSentences (s : String) : List String :=
  (splitRunsAux false s.data []).map String.mk

/-- Python `str.strip()`. -/
def pyStrip (s : String) : String :=
  String.mk (((s.data.dropWhile Char.isWhitespace).reverse.dropWhile Char.isWhitespace).reverse)

/-- Python `' '.join(words)`. -/
def joinSpace : List String → String
  | [] => ""
  | [v] => v
  | v :: vs => v ++ " " ++ joinSpace vs

/-- Python `key.replace(' ', '_')`. -/
def spacesToUnderscores (s : String) : String :=
  String.mk (s.data.map (fun c => if c == ' ' then '_' else c))

/-- `MemoryService.memory_categories`: per category, the pattern list and the
keyword list, in source order. -/
def memory_categories : List (String × List (List PatTok) × List String) :=
  [("personal_info",
    [litToks "my name is " ++ [.grp .word],
     litToks "i am " ++ [.grp .digit] ++ litToks " years old",
     litToks "i live in " ++ [.grp .notDot],
     litToks "i work as a " ++ [.grp .notDot],
     litToks "i am a " ++ [.grp .notDot],
     litToks "my job is " ++ [.grp .notDot],
     litToks "i study " ++ [.grp .notDot],
     litToks "i am from " ++ [.grp .notDot]],
    ["name", "age", "live", "work", "job", "study", "from", "hometown"]),
   ("relationships",
    [litToks "my " ++ [.grp .word] ++ litToks " is " ++ [.grp .word],
     litToks "i have a " ++ [.grp .word] ++ litToks " named " ++ [.grp .word],
     litToks "my " ++ [.grp .word] ++ litToks " and i " ++ [.grp .notDot],
     [.grp .word] ++ litToks " and i " ++ [.grp .notDot]],
    ["wife", "husband", "partner", "boyfriend", "girlfriend", "cat", "dog", "pet",
     "mom", "dad", "mother", "father", "friend", "colleague"]),
   ("interests",
    [litToks "i love " ++ [.grp .notDot],
     litToks "i enjoy " ++ [.grp .notDot],
     litToks "i like " ++ [.grp .notDot],
     litToks "i hate " ++ [.grp .notDot],
     litToks "i dislike " ++ [.grp .notDot],
     litToks "i play " ++ [.grp .notDot],
     litToks "i watch " ++ [.grp .notDot],
     [.grp .notDot] ++ litToks " is my passion",
     litToks "my passion is " ++ [.grp .notDot],
     litToks "i am passionate about " ++ [.grp .notDot]],
    ["love", "enjoy", "like", "hate", "dislike", "hobby", "play", "watch", "read",
     "listen", "passion", "passionate"]),
   ("challenges",
    [litToks "i struggle with " ++ [.grp .notDot],
     litToks "i have trouble " ++ [.grp .notDot],
     litToks "i'm having trouble " ++ [.grp .notDot],
     [.grp .notDot] ++ litToks " is difficult for me",
     [.grp .notDot] ++ litToks " is a daily battle",
     litToks "i worry about " ++ [.grp .notDot],
     litToks "i am stressed about " ++ [.grp .notDot]],
    ["struggle", "trouble", "difficult", "worry", "stressed", "anxiety",
     "depression", "problem"]),
   ("goals",
    [litToks "i want to " ++ [.grp .notDot],
     litToks "i plan to " ++ [.grp .notDot],
     litToks "i hope to " ++ [.grp .notDot],
     litToks "my goal is " ++ [.grp .notDot],
     litToks "i am trying to " ++ [.grp .notDot]],
    ["want", "plan", "hope", "goal", "trying", "dream", "aspire", "wish"]),
   ("preferences",
    [litToks "i prefer " ++ [.grp .notDot],
     litToks "i usually " ++ [.grp .notDot],
     litToks "i always " ++ [.grp .notDot],
     litToks "i never " ++ [.grp .notDot],
     litToks "i typically " ++ [.grp .notDot],
     litToks "i'm a " ++ [.grp .notDot],
     litToks "i am a " ++ [.grp .notDot],
     litToks "i like waking up " ++ [.grp .notDot]],
    ["prefer", "usually", "always", "never", "typically", "favorite", "routine",
     "vegetarian", "vegan"])]

/-- Build the candidate dict of one pattern match: a single capture keys
`<category>_general`; a tuple keys `<category>_<first capture>` with spaces
replaced by underscores and joins the captures with spaces. -/
def pattern_candidate (category source_type : String) (caps : List String) : MemoryDict :=
  match caps with
  | [single] => ⟨category, category ++ "_general", pyStrip single, 0.8, source_type⟩
  | [] => ⟨category, category ++ "_general", "", 0.8, source_type⟩
  | first :: _ =>
    ⟨category, spacesToUnderscores (category ++ "_" ++ first), pyStrip (joinSpace caps),
      0.8, source_type⟩

/-- The keyword pass of one category/keyword: every sentence of the original
text containing the keyword becomes a 0.6-confidence candidate. -/
def keyword_candidates (category source_type keyword text : String) : List MemoryDict :=
  if strIn keyword (pyLower text) then
    ((pySplitSentences text).filter (fun s => strIn keyword (pyLower s))).map
      (fun s => ⟨category, category ++ "_" ++ keyword, pyStrip s, 0.6, source_type⟩)
  else []

/-- All candidates of one category: pattern matches first, then keyword
captures, in source order. -/
def category_candidates (text source_type : String)
    (cfg : String × List (List PatTok) × List String) : List MemoryDict :=
  (cfg.2.1.map (fun p =>
      (pyFindAll p (pyLower text)).map (pattern_candidate cfg.1 source_type))).flatten
    ++ (cfg.2.2.map (fun kw => keyword_candidates cfg.1 source_type kw text)).flatten

/-- The duplicate test of the extraction-level dedup pass: same category and
key, or >60% value-token overlap (`overlap / total_unique > 0.6`). -/
def isDupOf (existing memory : MemoryDict) : Bool :=
  (existing.category == memory.category && existing.memory_key == memory.memory_key) ||
  (let mw := wordSet memory.memory_value
   let ew := wordSet existing.memory_value
   let overlap := interCount mw ew
   let total := unionCount mw ew
   decide (0 < total) && decide ((overlap : ℚ) / (total : ℚ) > 0.6))

/-- The first-seen-wins dedup pass over the extracted candidates. -/
def extract_dedup_aux (dedup : List MemoryDict) : List MemoryDict → List MemoryDict
  | [] => dedup
  | m :: ms =>
    if dedup.any (fun e => isDupOf e m) then extract_dedup_aux dedup ms
    else extract_dedup_aux (dedup ++ [m]) ms

/-- `MemoryService.extract_memories_from_text` (its `user_id` parameter is
never read). -/
def extract_memories_from_text (text source_type : String) : List MemoryDict :=
  extract_dedup_aux []
    ((memory_categories.map (category_candidates text source_type)).flatten)

/-- An extracted memory with no dynamically attached owner attribute. -/
def exHiking : ExtractedMemory :=
  ⟨"interests", "hiking", 0.6, none⟩

/-- The database after extracting and storing "I love hiking" for owner 1 on
an empty store (merge time 100). -/
def c5_db1 : List UserMemory :=
  (store_memories_internal [] 1
    (extract_memories_from_text "I love hiking" "conversation") 100 true).2

/-- The database after then extracting and storing "I really love hiking"
(merge time 200). -/
def c5_db2 : List UserMemory :=
  (store_memories_internal c5_db1 1
    (extract_memories_from_text "I really love hiking" "conversation") 200 true).2

-- Retrieval: `get_relevant_memories` and its helpers.  The correction
-- pre-pass (`invalidate_outdated_memories`) mutates some loaded records
-- before scoring; the retrieval theorems quantify over every database
-- content, so they cover every post-correction state.  The variables
-- `is_current_time_query`, `has_time_context` and `memory_has_time_refs`
-- of the source are computed but never read, and are not embedded.

/-- Secondary sort key comparison: `last_updated` descending with missing
timestamps last (SQLite places NULLs last in a descending order). -/
def optTimeGeB : Option ℚ → Option ℚ → Bool
  | _, none => true
  | none, some _ => false
  | some x, some y => decide (y ≤ x)

/-- The `order_by(confidence_score.desc(), last_updated.desc())` comparison. -/
def confidence_order (a b : UserMemory) : Bool :=
  decide (b.confidence_score < a.confidence_score) ||
    (decide (a.confidence_score = b.confidence_score) &&
      optTimeGeB a.last_updated b.last_updated)

/-- The loaded working set of `get_relevant_memories`: the owner's active
records, pre-sorted by confidence then recency (a stable sort models the
database ordering). -/
def sorted_active_memories (db : List UserMemory) (user_id : Nat) : List UserMemory :=
  List.insertionSort (fun a b => confidence_order a b = true)
    (db.filter (fun r => r.user_id == user_id && r.is_active))

/-- The `time_indicators` list of `_filter_memories_by_context_type`. -/
def context_type_time_indicators : List String :=
  ["wake up at", "get up at", "sleep at", "bedtime", "morning routine",
   "evening routine", "早上", "晚上", "睡觉时间"]

/-- `MemoryService._filter_memories_by_context_type`: in a "current"
conversation, drop stale (>24h) low-confidence time-of-day memories. -/
def filter_memories_by_context_type (memories : List UserMemory)
    (conversation_type : String) (current_time : ℚ) : List UserMemory :=
  if memories = [] then memories
  else
    memories.filter (fun m =>
      if conversation_type == "current" then
        if context_type_time_indicators.any (fun w => strIn w (pyLower m.memory_value)) then
          match m.last_updated with
          | some t =>
            !(decide ((current_time - t) / 3600 > 24) && decide (m.confidence_score < 0.9))
          | none => true
        else true
      else true)

/-- `mood_keywords` of `get_relevant_memories`. -/
def mood_keywords : List String :=
  ["feel", "feeling", "mood", "emotional", "happy", "sad", "angry", "excited",
   "tired", "stressed", "calm", "anxious"]

/-- `activity_keywords` of `get_relevant_memories`. -/
def activity_keywords : List String :=
  ["did", "went", "work", "school", "meeting", "exercise", "run", "walk", "eat",
   "cook", "watch", "read", "play", "stretching", "stretch", "yoga", "fitness",
   "workout"]

/-- `relationship_keywords` of `get_relevant_memories`. -/
def relationship_keywords : List String :=
  ["friend", "family", "partner", "colleague", "mom", "dad", "wife", "husband",
   "boyfriend", "girlfriend", "cat", "dog", "pet"]

/-- `challenge_keywords` of `get_relevant_memories`. -/
def challenge_keywords : List String :=
  ["difficult", "hard", "problem", "challenge", "struggle", "win", "success",
   "achievement", "accomplish"]

/-- The `emotion_indicators` of the mood semantic-relevance rule. -/
def emotion_indicators : List String :=
  ["feel", "emotion", "mood", "happy", "sad", "stress", "calm", "love", "hate",
   "enjoy", "like", "dislike"]

/-- Coarse context-type detection, first match wins, in source order. -/
def context_type_of (context_words : List String) : String :=
  if mood_keywords.any (fun w => context_words.contains w) then "mood"
  else if activity_keywords.any (fun w => context_words.contains w) then "activity"
  else if relationship_keywords.any (fun w => context_words.contains w) then "relationship"
  else if challenge_keywords.any (fun w => context_words.contains w) then "challenge"
  else "general"

/-- The `continue` rules of the scoring loop: stale temporal records need a
minimum word overlap, and very stale activity memories are skipped in an
activity context. -/
def passes_exclusion (context_words : List String) (context_type : String)
    (now : ℚ) (m : UserMemory) : Bool :=
  let memory_words := wordSet m.memory_value
  let tr := calculate_temporal_relevance_multiplier m now
  let word_overlap := interCount context_words memory_words
  let temporal_block :=
    classify_memory_type m == "temporal" && decide (tr < 0.5) &&
      (if decide (tr < 0.2) then
        (decide (word_overlap < 3) || decide (m.confidence_score < 0.9))
       else decide (word_overlap < 2))
  let activity_block :=
    context_type == "activity" && is_activity_value m && decide (tr < 0.1) &&
      decide (word_overlap < 3)
  !temporal_block && !activity_block

/-- The composite relevance score of one candidate record, in source order:
decay-weighted word overlap, decay-weighted category bonus, semantic bonus,
cross-category penalties, the zero-overlap near-elimination, decay-weighted
confidence, the 2-hour recency micro-boost, and the frequency-importance
boost. -/
def relevance_score_of (context_words : List String) (context_type : String)
    (now : ℚ) (m : UserMemory) : ℚ :=
  let memory_words := wordSet m.memory_value
  let memory_content_lower := pyLower m.memory_value
  let tr := calculate_temporal_relevance_multiplier m now
  let word_overlap := interCount context_words memory_words
  let s1 : ℚ := if word_overlap > 0 then (word_overlap : ℚ) * 0.4 * tr else 0
  let category_bonus : ℚ :=
    if context_type == "mood" && (m.category == "challenges" || m.category == "personal_info") then 0.3
    else if context_type == "activity" && m.category == "interests" then 0.5
    else if context_type == "relationship" && m.category == "relationships" then 0.7
    else if context_type == "challenge" && (m.category == "goals" || m.category == "challenges") then 0.5
    else 0
  let s2 := s1 + category_bonus * tr
  let s3 := s2 +
    (if context_type == "mood" &&
        emotion_indicators.any (fun w => strIn w memory_content_lower) then 0.4 * tr
     else if context_type == "relationship" &&
        relationship_keywords.any (fun w => strIn w memory_content_lower) then 0.5 * tr
     else 0)
  let s4 :=
    if context_type == "activity" && m.category == "personal_info" && word_overlap == 0 then
      s3 * 0.1
    else if context_type == "activity" && m.category == "interests" && word_overlap == 0 &&
        !(activity_keywords.any (fun w => strIn w memory_content_lower)) then
      s3 * 0.2
    else if context_type == "relationship" &&
        (m.category == "interests" || m.category == "preferences") then
      s3 * 0.4
    else s3
  let s5 := if word_overlap == 0 && decide (category_bonus = 0) then s4 * 0.1 else s4
  let s6 := s5 + m.confidence_score * 0.3 * tr
  let s7 := s6 +
    (match m.last_updated with
     | some t => if decide (now - t < 7200) then 0.2 else 0
     | none => 0)
  s7 + (if m.mention_count ≥ 5 then 5.0 else if m.mention_count ≥ 3 then 3.0 else 0)

/-- The descending-score order of the final sort (`reverse=True`, stable). -/
def score_order (a b : UserMemory × ℚ) : Prop :=
  b.2 ≤ a.2

instance : DecidableRel score_order :=
  fun a b => inferInstanceAs (Decidable (b.2 ≤ a.2))

instance : IsTotal (UserMemory × ℚ) score_order :=
  ⟨fun a b => le_total b.2 a.2⟩

instance : IsTrans (UserMemory × ℚ) score_order :=
  ⟨fun _ _ _ h1 h2 => le_trans h2 h1⟩

/-- The scoring loop of `get_relevant_memories`: the candidates that pass the
exclusion rules and the 0.5 minimum threshold, each paired with its score. -/
def scored_candidates (all_memories : List UserMemory) (context_words : List String)
    (context_type : String) (now : ℚ) : List (UserMemory × ℚ) :=
  (all_memories.filter (fun m =>
      passes_exclusion context_words context_type now m &&
        decide (relevance_score_of context_words context_type now m > 0.5))).map
    (fun m => (m, relevance_score_of context_words context_type now m))

/-- The ranked result of the scoring path: stable descending sort by score,
truncated to `min(limit, 5)`. -/
def ranked_relevant (all_memories : List UserMemory) (context_words : List String)
    (context_type : String) (now : ℚ) (limit : Nat) : List UserMemory :=
  ((List.insertionSort score_order
      (scored_candidates all_memories context_words context_type now)).take
    (min limit 5)).map Prod.fst

/-- The conservative fallback: at most one very fresh factual record from the
head of the working set. -/
def fallback_memories (all_memories : List UserMemory) (now : ℚ) : List UserMemory :=
  ((all_memories.take 5).filter (fun m =>
    classify_memory_type m == "factual" &&
      decide (calculate_temporal_relevance_multiplier m now > 0.9))).take 1

/-- `MemoryService.get_relevant_memories`: working set, blank-context path,
scoring path with exclusions and threshold 0.5, stable descending sort,
truncation to `min(limit, 5)`, and the conservative fallback. -/
def get_relevant_memories (db : List UserMemory) (user_id : Nat) (context : String)
    (limit : Nat) (current_time : ℚ) (conversation_type : String) : List UserMemory :=
  let all_memories := sorted_active_memories db user_id
  if pySplit context = [] then
    ((filter_memories_by_context_type (all_memories.take (limit * 3))
        conversation_type current_time).filter
      (fun m => decide (calculate_temporal_relevance_multiplier m current_time > 0.3))).take
      limit
  else
    let context_words := wordSet context
    let context_type := context_type_of context_words
    let relevant := ranked_relevant all_memories context_words context_type current_time limit
    if relevant = [] then
      if context_words.length ≤ 2 || context_type == "general" then
        fallback_memories all_memories current_time
      else []
    else relevant

/-- Six distinct fresh factual records of owner 1 (blank-context
counterexample input). -/
def c6_db : List UserMemory :=
  [⟨1, "personal_info", "personal_info_k1", "red", 0.9, "conversation", some 0, 1, true⟩,
   ⟨1, "personal_info", "personal_info_k2", "blue", 0.85, "conversation", some 0, 1, true⟩,
   ⟨1, "personal_info", "personal_info_k3", "green", 0.8, "conversation", some 0, 1, true⟩,
   ⟨1, "personal_info", "personal_info_k4", "cyan", 0.75, "conversation", some 0, 1, true⟩,
   ⟨1, "personal_info", "personal_info_k5", "mauve", 0.7, "conversation", some 0, 1, true⟩,
   ⟨1, "personal_info", "personal_info_k6", "ochre", 0.65, "conversation", some 0, 1, true⟩]

-- ===================================================================
-- Theorems
-- ===================================================================

/-- C2 counterexample: a record classified `factual` whose `last_updated` is
missing gets decay multiplier 0.5, not 1.0 — the source checks the
missing-timestamp case before the factual short-circuit. -/
theorem C2_counterexample :
    classify_memory_type memNoStamp = "factual" ∧
    calculate_temporal_relevance_multiplier memNoStamp 0 ≠ 1.0 := by
  constructor
  · decide
  · unfold calculate_temporal_relevance_multiplier memNoStamp
    norm_num

/-- C2 (amended): every record classified `factual` that carries a
`last_updated` timestamp has decay multiplier exactly 1.0, regardless of its
age; a factual record with a missing timestamp instead gets the neutral 0.5. -/
theorem C2_factual_decay (m : UserMemory) (t now : ℚ)
    (hlu : m.last_updated = some t)
    (hf : classify_memory_type m = "factual") :
    calculate_temporal_relevance_multiplier m now = 1.0 := by
  unfold calculate_temporal_relevance_multiplier
  rw [hlu]
  simp [hf]

/-- C2 witness: the amended theorem applied to a concrete very old factual
record. -/
theorem C2_factual_decay_witness :
    memFactualStamped.last_updated = some 0 ∧
    classify_memory_type memFactualStamped = "factual" ∧
    calculate_temporal_relevance_multiplier memFactualStamped 1000000000 = 1.0 :=
  ⟨rfl, by decide, C2_factual_decay memFactualStamped 0 1000000000 rfl (by decide)⟩

unseal Rat.mul Rat.inv Rat.add Rat.sub Rat.ofScientific in
/-- C3 counterexample: the 100-hour-old "I was watching a movie" record has
decay multiplier 0.4 (the 72–168h activity value), not the 0.2 the claim
asserts. -/
theorem C3_counterexample :
    calculate_temporal_relevance_multiplier memWatchingMovie 360000 ≠ 0.2 := by
  decide

unseal Rat.mul Rat.inv Rat.add Rat.sub Rat.ofScientific in
/-- C3 (amended): the `interests` record "I was watching a movie" has decay
multiplier 0.4 at age 100 hours (72–168h activity band) and 1.0 at age 30
minutes. -/
theorem C3_decay_scenario :
    calculate_temporal_relevance_multiplier memWatchingMovie 360000 = 0.4 ∧
    calculate_temporal_relevance_multiplier memWatchingMovie 1800 = 1.0 := by
  decide

/-- C4: a missing `last_updated` yields the neutral 0.5; otherwise every
temporal-classified record follows the stepped activity/general table on
`age_hours = (now − last_updated)/3600`: <24h → 1/1, 24–72h → 0.7/0.8,
72–168h → 0.4/0.6, 168–720h → 0.2/0.3, ≥720h → 0.05/0.1. -/
theorem C4_decay_table (m : UserMemory) (now : ℚ) :
    (m.last_updated = none → calculate_temporal_relevance_multiplier m now = 0.5) ∧
    (∀ t, m.last_updated = some t → classify_memory_type m = "temporal" →
      (((now - t) / 3600 < 24 →
          calculate_temporal_relevance_multiplier m now = 1.0) ∧
       (24 ≤ (now - t) / 3600 → (now - t) / 3600 < 72 →
          calculate_temporal_relevance_multiplier m now =
            (if is_activity_value m then 0.7 else 0.8)) ∧
       (72 ≤ (now - t) / 3600 → (now - t) / 3600 < 168 →
          calculate_temporal_relevance_multiplier m now =
            (if is_activity_value m then 0.4 else 0.6)) ∧
       (168 ≤ (now - t) / 3600 → (now - t) / 3600 < 720 →
          calculate_temporal_relevance_multiplier m now =
            (if is_activity_value m then 0.2 else 0.3)) ∧
       (720 ≤ (now - t) / 3600 →
          calculate_temporal_relevance_multiplier m now =
            (if is_activity_value m then 0.05 else 0.1)))) := by
  constructor
  · intro h
    simp only [calculate_temporal_relevance_multiplier, h]
  · intro t hlu htemp
    have hfact : ¬ classify_memory_type m = "factual" := by
      rw [htemp]; decide
    simp only [calculate_temporal_relevance_multiplier, hlu, if_neg hfact]
    refine ⟨?_, ?_, ?_, ?_, ?_⟩
    · intro h
      rw [if_pos h]
    · intro h1 h2
      rw [if_neg (by linarith), if_pos h2]
    · intro h1 h2
      rw [if_neg (by linarith), if_neg (by linarith), if_pos h2]
    · intro h1 h2
      rw [if_neg (by linarith), if_neg (by linarith), if_neg (by linarith), if_pos h2]
    · intro h1
      rw [if_neg (by linarith), if_neg (by linarith), if_neg (by linarith),
        if_neg (by linarith)]

/-- C4 witness: the table applied to a concrete 100-hour-old general temporal
record, landing in the 72–168h band. -/
theorem C4_decay_table_witness :
    memHikingTrips.last_updated = some 0 ∧
    classify_memory_type memHikingTrips = "temporal" ∧
    calculate_temporal_relevance_multiplier memHikingTrips 360000 =
      (if is_activity_value memHikingTrips then 0.4 else 0.6) :=
  ⟨rfl, by decide,
    ((C4_decay_table memHikingTrips 360000).2 0 rfl (by decide)).2.2.1
      (by norm_num) (by norm_num)⟩

/-- C7: the classifier applies its rules in order: a temporal indicator in the
value text forces `temporal` regardless of category; otherwise the static
category map applies; any category outside the fixed six yields `factual`. -/
theorem C7_classify_rule_order (m : UserMemory) :
    (has_temporal_indicator m = true → classify_memory_type m = "temporal") ∧
    (has_temporal_indicator m = false →
      ((m.category ∈ factual_categories → classify_memory_type m = "factual") ∧
       (m.category ∈ temporal_categories → classify_memory_type m = "temporal") ∧
       (m.category ∉ factual_categories → m.category ∉ temporal_categories →
          classify_memory_type m = "factual"))) := by
  refine ⟨?_, ?_⟩
  · intro h
    simp [classify_memory_type, h]
  · intro h
    refine ⟨?_, ?_, ?_⟩
    · intro hf
      simp [classify_memory_type, h, hf]
    · intro ht
      have hf : m.category ∉ factual_categories := by
        intro hmem
        have h1 : m.category = "personal_info" ∨ m.category = "relationships" := by
          simpa [factual_categories] using hmem
        have h2 : m.category = "interests" ∨ m.category = "challenges" ∨
            m.category = "goals" ∨ m.category = "preferences" := by
          simpa [temporal_categories] using ht
        rcases h1 with h1 | h1 <;>
          rcases h2 with h2 | h2 | h2 | h2 <;> rw [h1] at h2 <;> exact absurd h2 (by decide)
      simp [classify_memory_type, h, hf, ht]
    · intro hf ht
      simp [classify_memory_type, h, hf, ht]

/-- C7 witness: the rule order applied to a record in an unknown category with
no temporal indicator, which classifies as factual. -/
theorem C7_classify_rule_order_witness :
    has_temporal_indicator memUnknownCategory = false ∧
    classify_memory_type memUnknownCategory = "factual" :=
  ⟨by decide,
    ((C7_classify_rule_order memUnknownCategory).2 (by decide)).2.2
      (by decide) (by decide)⟩

-- Helper lemmas for the formatter cap (shared, not claim theorems).

/-- Summing an indicator of `x` over a list without `x` gives zero. -/
lemma indicator_sum_eq_zero (cats : List String) (x : String) (hx : x ∉ cats) :
    ((cats.map (fun c => if x = c then 1 else 0)).sum : ℕ) = 0 := by
  induction cats with
  | nil => rfl
  | cons c cs ih =>
    have hxc : x ≠ c := fun h => hx (h ▸ List.mem_cons_self c cs)
    have hxs : x ∉ cs := fun h => hx (List.mem_cons_of_mem c h)
    simp [hxc, ih hxs]

/-- Summing an indicator of `x` over a duplicate-free list gives at most one. -/
lemma indicator_sum_le_one (cats : List String) (hnd : cats.Nodup) (x : String) :
    ((cats.map (fun c => if x = c then 1 else 0)).sum : ℕ) ≤ 1 := by
  induction cats with
  | nil => simp
  | cons c cs ih =>
    rcases List.nodup_cons.mp hnd with ⟨hc, hcs⟩
    by_cases h : x = c
    · subst h
      simp [indicator_sum_eq_zero cs x hc]
    · simp only [List.map_cons, List.sum_cons, if_neg h]
      simpa using ih hcs

/-- Splitting a sum of pointwise sums. -/
lemma sum_map_add_split (cats : List String) (f g : String → ℕ) :
    (cats.map (fun c => f c + g c)).sum = (cats.map f).sum + (cats.map g).sum := by
  induction cats with
  | nil => rfl
  | cons c cs ih =>
    simp only [List.map_cons, List.sum_cons, ih]
    omega

/-- Over a duplicate-free list of categories, the per-category filters of a
record list partition it, so their lengths sum to at most the list's length. -/
lemma sum_filter_category_le (cats : List String) (hnd : cats.Nodup)
    (l : List UserMemory) :
    (cats.map (fun c => (l.filter (fun m => m.category == c)).length)).sum ≤ l.length := by
  induction l with
  | nil => simp
  | cons m tl ih =>
    have hstep : (cats.map (fun c => ((m :: tl).filter (fun x => x.category == c)).length)) =
        cats.map (fun c =>
          (tl.filter (fun x => x.category == c)).length + (if m.category = c then 1 else 0)) := by
      apply List.map_congr_left
      intro c _
      by_cases h : m.category = c
      · simp [List.filter_cons, h]
      · simp [List.filter_cons, h]
    rw [hstep, sum_map_add_split]
    have h1 := indicator_sum_le_one cats hnd m.category
    simp only [List.length_cons]
    omega

/-- `firstDedupAux` returns a duplicate-free list avoiding the seen set. -/
lemma firstDedupAux_spec (l : List String) :
    ∀ seen, (firstDedupAux seen l).Nodup ∧ ∀ x ∈ firstDedupAux seen l, x ∉ seen := by
  induction l with
  | nil => intro seen; exact ⟨List.nodup_nil, by simp [firstDedupAux]⟩
  | cons c cs ih =>
    intro seen
    by_cases h : c ∈ seen
    · simpa [firstDedupAux, h] using ih seen
    · simp only [firstDedupAux, if_neg h]
      obtain ⟨ihnd, ihmem⟩ := ih (c :: seen)
      refine ⟨List.nodup_cons.mpr ⟨?_, ihnd⟩, ?_⟩
      · intro hc
        exact (ihmem c hc) (List.mem_cons_self c seen)
      · intro x hx
        rcases List.mem_cons.mp hx with rfl | hx
        · exact h
        · intro hxs
          exact (ihmem x hx) (List.mem_cons_of_mem c hxs)

/-- `firstDedup` produces a duplicate-free list. -/
lemma firstDedup_nodup (l : List String) : (firstDedup l).Nodup :=
  (firstDedupAux_spec l []).1

/-- The joined, grouped, per-category-truncated view of a record list never
exceeds the list's length. -/
lemma surfaced_le_filtered (filtered : List UserMemory) :
    (((firstDedup (filtered.map (fun m => m.category))).map
      (fun c => (filtered.filter (fun m => m.category == c)).take 3)).flatten).length ≤
      filtered.length := by
  rw [List.length_flatten, List.map_map]
  refine le_trans (List.sum_le_sum ?_)
    (sum_filter_category_le _ (firstDedup_nodup _) filtered)
  intro c _
  calc ((filtered.filter (fun m => m.category == c)).take 3).length
      ≤ min 3 (filtered.filter (fun m => m.category == c)).length := by
        rw [List.length_take]
    _ ≤ (filtered.filter (fun m => m.category == c)).length := min_le_right _ _

unseal Rat.mul Rat.inv Rat.add Rat.sub Rat.ofScientific in
/-- C8 counterexample: `format_memories_for_prompt` reads the clock in its
mood-only suppression rule, so the same (records, language, context) renders
differently at two different times. -/
theorem C8_counterexample :
    format_memories_for_prompt [memPainting] "en" "feeling tired" 0 ≠
      format_memories_for_prompt [memPainting] "en" "feeling tired" 3456000 := by
  decide

/-- C8 (amended): `format_memories_for_prompt` is a pure function of
(records, language, context, current time); whenever the context is not a
short mood-only context it is independent of the clock. -/
theorem C8_formatter_time_independent (memories : List UserMemory)
    (language context : String) (t₁ t₂ : ℚ)
    (h : is_mood_only_context context = false) :
    format_memories_for_prompt memories language context t₁ =
      format_memories_for_prompt memories language context t₂ := by
  have hp : ∀ m : UserMemory,
      should_include_memory context t₁ m = should_include_memory context t₂ m := by
    intro m
    simp only [should_include_memory, h, Bool.false_and, Bool.not_false, Bool.true_and]
  have hf : filter_memories_by_conversational_context memories context t₁ =
      filter_memories_by_conversational_context memories context t₂ := by
    unfold filter_memories_by_conversational_context
    by_cases hc : context = ""
    · rw [if_pos hc, if_pos hc]
    · rw [if_neg hc, if_neg hc]
      by_cases hm : memories = []
      · rw [if_pos hm, if_pos hm]
      · rw [if_neg hm, if_neg hm]
        congr 1
        exact List.filter_congr (fun m _ => hp m)
  unfold format_memories_for_prompt
  rw [hf]

/-- C8 witness: the amended purity theorem at a non-mood context and two far
apart times. -/
theorem C8_formatter_time_independent_witness :
    is_mood_only_context "good day sunshine" = false ∧
    format_memories_for_prompt [memPainting] "en" "good day sunshine" 0 =
      format_memories_for_prompt [memPainting] "en" "good day sunshine" 3456000 :=
  ⟨by decide,
    C8_formatter_time_independent [memPainting] "en" "good day sunshine" 0 3456000
      (by decide)⟩

/-- C9 counterexample: with an empty context (0 tokens, so fewer than 10) the
suppression pass returns the records unchanged and uncapped, and the formatter
surfaces all three same-category values. -/
theorem C9_counterexample :
    (pySplit "").length < 10 ∧
    (surfaced_memories [memAlpha, memBeta, memGamma] "" 0).length = 3 ∧
    format_memories_for_prompt [memAlpha, memBeta, memGamma] "en" "" 0 =
      "Relevant user context (use sparingly, only when directly relevant):\n- Interests: alpha; beta; gamma\n" := by
  decide

/-- C9 (amended): for every non-empty context the formatter surfaces at most 2
memories when the context has fewer than 10 whitespace-delimited tokens and at
most 3 otherwise; an empty records list, or one fully removed by the
suppression pass, yields the empty string.  (For the empty context the
suppression pass returns its input uncapped.) -/
theorem C9_formatter_cap (memories : List UserMemory) (language context : String)
    (now : ℚ) (h : context ≠ "") :
    (surfaced_memories memories context now).length ≤
      (if (pySplit context).length < 10 then 2 else 3) ∧
    (memories = [] → format_memories_for_prompt memories language context now = "") ∧
    (filter_memories_by_conversational_context memories context now = [] →
      format_memories_for_prompt memories language context now = "") := by
  refine ⟨?_, ?_, ?_⟩
  · unfold surfaced_memories
    refine le_trans (surfaced_le_filtered _) ?_
    unfold filter_memories_by_conversational_context
    rw [if_neg h]
    by_cases hm : memories = []
    · rw [if_pos hm]
      simp [hm]
    · rw [if_neg hm]
      exact List.length_take_le _ _
  · intro hm
    simp [format_memories_for_prompt, hm]
  · intro hf
    by_cases hm : memories = []
    · simp [format_memories_for_prompt, hm]
    · simp [format_memories_for_prompt, hm, hf]

/-- C9 witness: the cap theorem at a concrete three-token context. -/
theorem C9_formatter_cap_witness :
    (surfaced_memories [memAlpha] "hello there friend" 0).length ≤
      (if (pySplit "hello there friend").length < 10 then 2 else 3) :=
  (C9_formatter_cap [memAlpha] "en" "hello there friend" 0 (by decide)).1

-- Helper lemmas for the store path (shared, not claim theorems).

/-- Each candidate of a store batch appends exactly one record to the stored
list (merged or inserted). -/
lemma store_step_stored_length (uid : Nat) (now : ℚ)
    (st : SessionState × List UserMemory) (d : MemoryDict) :
    ((store_step uid now st d).2).length = st.2.length + 1 := by
  unfold store_step
  split <;> (try split) <;> simp

/-- The stored list of a store fold grows by exactly the batch length. -/
lemma store_fold_length (uid : Nat) (now : ℚ) (batch : List MemoryDict) :
    ∀ st : SessionState × List UserMemory,
      ((batch.foldl (store_step uid now) st).2).length = st.2.length + batch.length := by
  induction batch with
  | nil => intro st; simp
  | cons d ds ih =>
    intro st
    rw [List.foldl_cons, ih, store_step_stored_length]
    simp only [List.length_cons]
    omega

/-- A successful `merge_first` merged an element of the list that satisfied
the predicate. -/
lemma merge_first_mem (pred : UserMemory → Bool) (f : UserMemory → UserMemory) :
    ∀ (rows rows2 : List UserMemory) (m : UserMemory),
      merge_first pred f rows = some (rows2, m) →
      ∃ r, r ∈ rows ∧ pred r = true ∧ m = f r := by
  intro rows
  induction rows with
  | nil => intro rows2 m h; simp [merge_first] at h
  | cons r rs ih =>
    intro rows2 m h
    unfold merge_first at h
    by_cases hp : pred r
    · rw [if_pos hp] at h
      simp only [Option.some.injEq, Prod.mk.injEq] at h
      exact ⟨r, List.mem_cons_self r rs, hp, h.2.symm⟩
    · rw [if_neg hp] at h
      cases hrec : merge_first pred f rs with
      | none => rw [hrec] at h; simp at h
      | some p =>
        rw [hrec] at h
        cases p with
        | mk rs2 mm =>
          simp only [Option.some.injEq, Prod.mk.injEq] at h
          obtain ⟨r2, hr2, hpred, hme⟩ := ih rs2 mm hrec
          exact ⟨r2, List.mem_cons_of_mem _ hr2, hpred, h.2 ▸ hme⟩

/-- `merge_into` does not change the owner. -/
lemma merge_into_user_id (r : UserMemory) (v : String) (now : ℚ) :
    (merge_into r v now).user_id = r.user_id := rfl

/-- Both store lookup predicates require the owner to match. -/
lemma exact_pred_user (uid : Nat) (d : MemoryDict) (r : UserMemory)
    (h : exact_pred uid d r = true) : r.user_id = uid := by
  unfold exact_pred at h
  simp only [Bool.and_eq_true, beq_iff_eq] at h
  exact h.1.1

/-- The similarity predicate also requires the owner to match. -/
lemma similar_pred_user (uid : Nat) (d : MemoryDict) (r : UserMemory)
    (h : similar_pred uid d r = true) : r.user_id = uid := by
  unfold similar_pred at h
  simp only [Bool.and_eq_true, beq_iff_eq] at h
  exact h.1.1

/-- One store step preserves the invariant that every stored record belongs
to the batch owner. -/
lemma store_step_owner (uid : Nat) (now : ℚ) (st : SessionState × List UserMemory)
    (d : MemoryDict) (hst : ∀ r ∈ st.2, r.user_id = uid) :
    ∀ r ∈ (store_step uid now st d).2, r.user_id = uid := by
  intro r hr
  unfold store_step at hr
  split at hr
  case h_1 rows2 m heq =>
    rcases List.mem_append.mp hr with h | h
    · exact hst r h
    · obtain ⟨r2, _, hpred, hme⟩ := merge_first_mem _ _ _ _ _ heq
      have : r = m := by simpa using h
      rw [this, hme, merge_into_user_id]
      exact exact_pred_user uid d r2 hpred
  case h_2 hne =>
    split at hr
    case h_1 rows2 m heq =>
      rcases List.mem_append.mp hr with h | h
      · exact hst r h
      · obtain ⟨r2, _, hpred, hme⟩ := merge_first_mem _ _ _ _ _ heq
        have : r = m := by simpa using h
        rw [this, hme, merge_into_user_id]
        exact similar_pred_user uid d r2 hpred
    case h_2 =>
      rcases List.mem_append.mp hr with h | h
      · exact hst r h
      · have : r = new_memory uid d now := by simpa using h
        rw [this]
        rfl

/-- The store fold only ever stores records of the batch owner. -/
lemma store_fold_owner (uid : Nat) (now : ℚ) (batch : List MemoryDict) :
    ∀ st : SessionState × List UserMemory, (∀ r ∈ st.2, r.user_id = uid) →
      ∀ r ∈ (batch.foldl (store_step uid now) st).2, r.user_id = uid := by
  induction batch with
  | nil => intro st h; simpa using h
  | cons d ds ih =>
    intro st h
    rw [List.foldl_cons]
    exact ih _ (store_step_owner uid now st d h)

/-- C1: the batch is written by one atomic transaction: when the persistence
step fails, the call raises a single storage-failure signal and the database
state is exactly the pre-call state (no record inserted, none mutated); when
it succeeds, every candidate of the batch was merged or inserted in that one
committed write (the stored list has one entry per candidate). -/
theorem C1_store_atomic (db : List UserMemory) (user_id : Nat)
    (batch : List MemoryDict) (now : ℚ) :
    ((store_memories_internal db user_id batch now false).1 = .error () ∧
     (store_memories_internal db user_id batch now false).2 = db) ∧
    (∃ stored, (store_memories_internal db user_id batch now true).1 = .ok stored ∧
      stored.length = batch.length) := by
  refine ⟨⟨rfl, rfl⟩, ?_⟩
  refine ⟨(batch.foldl (store_step user_id now)
    ((⟨⟨db, []⟩, []⟩ : SessionState × List UserMemory))).2, rfl, ?_⟩
  simpa using store_fold_length user_id now batch ⟨⟨db, []⟩, []⟩

/-- C10: calling the public `store_memories` with `user_id=None` and a
non-empty batch whose first memory carries no `user_id` attribute does not
fail: the whole batch is silently attributed to the hard-coded default
owner 1. -/
theorem C10_store_default_owner (memories : List ExtractedMemory)
    (db : List UserMemory) (now : ℚ) (m0 : ExtractedMemory)
    (h0 : memories.head? = some m0) (hattr : m0.user_id_attr = none) :
    ∃ stored, (store_memories memories db none now true).1 = .ok stored ∧
      ∀ r ∈ stored, r.user_id = 1 := by
  cases memories with
  | nil => simp at h0
  | cons m ms =>
    have hm : m = m0 := by simpa using h0
    subst hm
    unfold store_memories
    simp only [hattr, Option.getD_none]
    rw [if_neg (by simp)]
    unfold store_memories_internal
    rw [if_pos rfl]
    exact ⟨_, rfl, store_fold_owner 1 now _ ⟨⟨db, []⟩, []⟩ (by simp)⟩

/-- C10 witness: the default-owner theorem applied to a one-element batch on
an empty store. -/
theorem C10_store_default_owner_witness :
    ([exHiking].head? = some exHiking) ∧ exHiking.user_id_attr = none ∧
    (∃ stored, (store_memories [exHiking] [] none 0 true).1 = .ok stored ∧
      ∀ r ∈ stored, r.user_id = 1) :=
  ⟨rfl, rfl, C10_store_default_owner [exHiking] [] 0 exHiking rfl rfl⟩

unseal Rat.mul Rat.inv Rat.add Rat.sub Rat.ofScientific in
/-- C5 counterexample: extracting and storing "I love hiking" and then
"I really love hiking" on an empty store leaves two records, not one — the
first utterance also yields a pattern-derived record "hiking" that never
merges with the keyword-derived sentence record. -/
theorem C5_counterexample :
    c5_db2.length ≠ 1 ∧ c5_db2.length = 2 := by
  decide

unseal Rat.mul Rat.inv Rat.add Rat.sub Rat.ofScientific in
/-- C5 (amended): the two near-duplicate utterances leave exactly two stored
records: the keyword-derived sentence record is merged into one record with
`mention_count == 2` and confidence `0.6 + 0.1 = 0.7` (the +0.1 increment,
capped at 1.0), while the pattern-derived record "hiking" of the first
utterance remains separate with `mention_count == 1`. -/
theorem C5_near_duplicate_merge :
    c5_db2 =
      [⟨1, "interests", "interests_general", "hiking", 0.8, "conversation",
         some 100, 1, true⟩,
       ⟨1, "interests", "interests_love", "I really love hiking", 0.7, "conversation",
         some 200, 2, true⟩] ∧
    (c5_db2.filter (fun r => r.mention_count == 2)).length = 1 ∧
    min 1.0 ((0.6 : ℚ) + 0.1) = 0.7 := by
  decide

-- Helper lemmas for the retrieval ordering claim (shared, not claim theorems).

/-- A one-element prefix is vacuously pairwise-sorted. -/
lemma pairwise_take_one {α : Type} (R : α → α → Prop) (l : List α) :
    (l.take 1).Pairwise R := by
  cases l with
  | nil => simp
  | cons a l2 => simp

/-- Every scored candidate carries exactly its computed score. -/
lemma scored_candidates_snd (all_memories : List UserMemory)
    (context_words : List String) (context_type : String) (now : ℚ) :
    ∀ p ∈ scored_candidates all_memories context_words context_type now,
      p.2 = relevance_score_of context_words context_type now p.1 := by
  intro p hp
  unfold scored_candidates at hp
  obtain ⟨m, _, rfl⟩ := List.mem_map.mp hp
  rfl

/-- Mapping `Prod.fst` over a prefix of a score-sorted pair list whose second
components are the scores of the first yields a list sorted by descending
score. -/
lemma sorted_score_map_fst (context_words : List String) (context_type : String)
    (now : ℚ) (l : List (UserMemory × ℚ)) (k : Nat)
    (hmem : ∀ p ∈ l, p.2 = relevance_score_of context_words context_type now p.1)
    (hs : l.Pairwise score_order) :
    ((l.take k).map Prod.fst).Pairwise
      (fun a b => relevance_score_of context_words context_type now b ≤
        relevance_score_of context_words context_type now a) := by
  rw [List.pairwise_map]
  have htake : (l.take k).Pairwise score_order := hs.sublist (List.take_sublist k l)
  refine htake.imp_of_mem ?_
  intro a b ha hb hab
  rw [← hmem a (List.take_subset k l ha), ← hmem b (List.take_subset k l hb)]
  exact hab

/-- The ranked scoring result is bounded by `min(limit, 5)`. -/
lemma ranked_relevant_length_le (all_memories : List UserMemory)
    (context_words : List String) (context_type : String) (now : ℚ) (limit : Nat) :
    (ranked_relevant all_memories context_words context_type now limit).length ≤
      min limit 5 := by
  unfold ranked_relevant
  rw [List.length_map]
  exact List.length_take_le _ _

/-- The ranked scoring result is sorted by descending computed score. -/
lemma ranked_relevant_pairwise (all_memories : List UserMemory)
    (context_words : List String) (context_type : String) (now : ℚ) (limit : Nat) :
    (ranked_relevant all_memories context_words context_type now limit).Pairwise
      (fun a b => relevance_score_of context_words context_type now b ≤
        relevance_score_of context_words context_type now a) := by
  unfold ranked_relevant
  refine sorted_score_map_fst context_words context_type now _ _ ?_ ?_
  · intro p hp
    exact scored_candidates_snd all_memories context_words context_type now p
      ((List.perm_insertionSort score_order _).mem_iff.mp hp)
  · exact List.sorted_insertionSort score_order _

unseal Rat.mul Rat.inv Rat.add Rat.sub Rat.ofScientific in
/-- C6 counterexample: the `min(limit, 5)` length bound fails twice.  With a
blank context the source returns up to `limit` records with no cap at 5 (six
fresh factual records and `limit = 10` yield six results, exceeding
`min(10, 5) = 5`); and with a non-blank short context and `limit = 0` the
conservative fallback still returns one very fresh factual record, exceeding
`min(0, 5) = 0`. -/
theorem C6_counterexample :
    min 10 5 < (get_relevant_memories c6_db 1 "" 10 0 "current").length ∧
    min 0 5 < (get_relevant_memories [memFactualStamped] 1 "hello" 0 0 "current").length := by
  decide

/-- C6 (amended): for every blank/whitespace context the result is capped at
`limit` only; for every non-blank context the result is sorted in descending
order of the computed relevance score and has length at most
`max(min(limit, 5), 1)` — the scoring path is truncated to `min(limit, 5)`,
and the conservative fallback can contribute one record even when
`min(limit, 5) = 0`. -/
theorem C6_sorted_and_bounded (db : List UserMemory) (user_id : Nat)
    (context : String) (limit : Nat) (now : ℚ) (conversation_type : String) :
    (pySplit context = [] →
      (get_relevant_memories db user_id context limit now conversation_type).length ≤
        limit) ∧
    (pySplit context ≠ [] →
      ((get_relevant_memories db user_id context limit now conversation_type).length ≤
          max (min limit 5) 1 ∧
        (get_relevant_memories db user_id context limit now conversation_type).Pairwise
          (fun a b =>
            relevance_score_of (wordSet context) (context_type_of (wordSet context)) now b ≤
              relevance_score_of (wordSet context) (context_type_of (wordSet context)) now a))) := by
  constructor
  · intro h
    simp only [get_relevant_memories, h]
    simp only [if_pos]
    exact List.length_take_le _ _
  · intro h
    simp only [get_relevant_memories, if_neg h]
    constructor
    · split
      · split
        · exact le_trans (List.length_take_le _ _) (le_max_right _ _)
        · simp
      · exact le_trans (ranked_relevant_length_le _ _ _ _ _) (le_max_left _ _)
    · split
      · split
        · exact pairwise_take_one _ _
        · exact List.Pairwise.nil
      · exact ranked_relevant_pairwise _ _ _ _ _

/-- C6 witness: the amended theorem at a concrete non-blank context. -/
theorem C6_sorted_and_bounded_witness :
    pySplit "hello" ≠ [] ∧
    ((get_relevant_memories [memFactualStamped] 1 "hello" 3 0 "current").length ≤
        max (min 3 5) 1 ∧
      (get_relevant_memories [memFactualStamped] 1 "hello" 3 0 "current").Pairwise
        (fun a b =>
          relevance_score_of (wordSet "hello") (context_type_of (wordSet "hello")) 0 b ≤
            relevance_score_of (wordSet "hello") (context_type_of (wordSet "hello")) 0 a)) :=
  ⟨by decide,
    (C6_sorted_and_bounded [memFactualStamped] 1 "hello" 3 0 "current").2 (by decide)⟩

end DearMe
